import Mathlib

/-!
Verification of the hiring-process pipeline (resume → assessment → final
shortlisting) against its Python source.  The embedding models one hiring
process at a time: the application records of the process, the pure transition
logic of each stage, the deadline checks of the manual-trigger controllers,
and the APScheduler job registry.  Scores are integers; the final combined
score is a rational.
-/

namespace Hiring

/-- The candidate status state machine (`status` field of an application). -/
inductive Status where
  | Applied
  | Resume_shortlisted
  | Resume_rejected
  | OA_cleared
  | OA_rejected
  | Final_selected
  | Final_rejected
deriving DecidableEq, Repr

/-- One application record (`db_schema.Application`), restricted to the fields
the pipeline reads and writes.  Nullable Mongo fields are `Option`. -/
structure Application where
  candidate_id : String
  resume_text : String
  status : Status
  resume_match_score : Option Int := none
  oa_score : Option Int := none
  tech_score : Option Int := none
  hr_score : Option Int := none
  final_score : Option ℚ := none
deriving DecidableEq, Repr

/-! ## Final shortlisting stage (`final_shortlisting_workflow.py`) -/

/-- Powers of two over the integers, defined structurally so that concrete
instances evaluate in the kernel. -/
def pow2 : ℕ → ℤ
  | 0 => 1
  | n+1 => 2 * pow2 n

/-- Mantissa loop of binary64 (IEEE-754 double) rounding: scales the positive
rational `a / b` by powers of two — tracked in the exponent `e` — until the
quotient lies in `[2^52, 2^53)` (the literals are `4503599627370496 = 2^52`
and `9007199254740992 = 2^53`), then rounds it to an integer mantissa with
round half to even.  The fuel only bounds the number of doublings; the fuel
passed by `roundDyadic` always suffices, so the fuel-exhausted branch is never
reached. -/
def roundLoop : ℕ → ℤ → ℤ → ℤ → ℤ × ℤ
  | 0, _, _, e => (0, e)
  | fuel+1, a, b, e =>
      if a < 4503599627370496 * b then roundLoop fuel (2*a) b (e-1)
      else if 9007199254740992 * b ≤ a then roundLoop fuel a (2*b) (e+1)
      else
        let q := a / b
        let r := a % b
        let n := if 2*r < b then q else if b < 2*r then q + 1
                 else if q % 2 = 0 then q else q + 1
        (n, e)

/-- The binary64 value nearest to the rational `a / b` (`b > 0`), as a dyadic
pair `(m, e)` of value `m * 2^e`, with round half to even — the rounding CPython
applies to every float literal and every arithmetic result.  The exponent is
not bounded, so overflow to infinity and subnormal loss are not modeled: the
model is exact for every magnitude the score pipeline produces.  Validated
against CPython binary64 arithmetic over the whole score domain. -/
def roundDyadic (a b : ℤ) : ℤ × ℤ :=
  if a = 0 then (0, 0)
  else if 0 < a then roundLoop (a.natAbs + b.natAbs + 60) a b 0
  else
    let p := roundLoop (a.natAbs + b.natAbs + 60) (-a) b 0
    (-p.1, p.2)

/-- The binary64 value of a Python int, as CPython converts an int operand of
a float operation (exact below `2^53`). -/
def floatOfInt (n : ℤ) : ℤ × ℤ := roundDyadic n 1

/-- Binary64 multiplication: the exact product of the dyadic values, then one
rounding. -/
def fmul (x y : ℤ × ℤ) : ℤ × ℤ :=
  let p := roundDyadic (x.1 * y.1) 1
  (p.1, p.2 + x.2 + y.2)

/-- Binary64 addition: align the exponents exactly, add the mantissas, then
one rounding. -/
def fadd (x y : ℤ × ℤ) : ℤ × ℤ :=
  if x.2 ≤ y.2 then
    let p := roundDyadic (x.1 + y.1 * pow2 (y.2 - x.2).toNat) 1
    (p.1, p.2 + x.2)
  else
    let p := roundDyadic (y.1 + x.1 * pow2 (x.2 - y.2).toNat) 1
    (p.1, p.2 + y.2)

/-- The binary64 value of the Python literal `0.4`:
`7205759403792794 * 2^-54`, slightly above 2/5. -/
def lit04 : ℤ × ℤ := roundDyadic 4 10

/-- The binary64 value of the Python literal `0.3`:
`5404319552844595 * 2^-54`, slightly below 3/10. -/
def lit03 : ℤ × ℤ := roundDyadic 3 10

/-- The exact rational value of a dyadic pair. -/
def dyadicVal (x : ℤ × ℤ) : ℚ :=
  if 0 ≤ x.2 then (x.1 : ℚ) * (2 : ℚ) ^ x.2.toNat
  else (x.1 : ℚ) / (2 : ℚ) ^ (-x.2).toNat

/-- The combined-score expression of `process_final_shortlisting`,
`(oa_score * 0.4) + (tech_score * 0.3) + (hr_score * 0.3)`, computed exactly
as CPython does: left-associated, every operation in binary64 with one
rounding each.  At the boundary this differs from exact arithmetic: e.g.
`(91, 96, 16)` gives 69.99999999999999, strictly below 70, although the exact
combination is 70. -/
def float_combine (oa tech hr : ℤ) : ℤ × ℤ :=
  fadd (fadd (fmul (floatOfInt oa) lit04) (fmul (floatOfInt tech) lit03))
       (fmul (floatOfInt hr) lit03)

/-- The combined score of an application: each score is read with
`app.get(..., 0)` — a missing score counts as 0. -/
def combined_dyadic (a : Application) : ℤ × ℤ :=
  float_combine (a.oa_score.getD 0) (a.tech_score.getD 0) (a.hr_score.getD 0)

/-- The weighted combined score of `process_final_shortlisting` as an exact
rational: the value of the binary64 number the code computes and stores (the
float-int comparison against the threshold 70 and the stored `final_score`
both use this exact value). -/
def combined_score (a : Application) : ℚ := dyadicVal (combined_dyadic a)

/-- Whether the query of `process_final_shortlisting`,
`{status: "OA_cleared", hr_score: {"$exists": True}}`, matches an application. -/
def final_batch_filter (a : Application) : Bool :=
  a.status = Status.OA_cleared && a.hr_score.isSome

/-- The per-application update performed by `process_final_shortlisting`:
applications matched by the query get the combined score written to
`final_score` and status `Final_selected` iff the combined score is ≥ 70,
else `Final_rejected`; other applications are untouched. -/
def process_final_shortlisting_app (a : Application) : Application :=
  if final_batch_filter a then
    { a with
      status := if 70 ≤ combined_score a then Status.Final_selected
                else Status.Final_rejected,
      final_score := some (combined_score a) }
  else a

/-- Batch form of `process_final_shortlisting` over the applications of the
process. -/
def process_final_shortlisting (apps : List Application) : List Application :=
  apps.map process_final_shortlisting_app

/-- Outcome of `process_interview_deadline`. -/
inductive FinalStageOutcome where
  | info
  | postponed (oa_cleared_count scored_count : Nat)
  | success
deriving DecidableEq, Repr

/-- The count `count_documents({status: "OA_cleared"})` for the process. -/
def oa_cleared_count (apps : List Application) : Nat :=
  (apps.filter (fun a => a.status = Status.OA_cleared)).length

/-- The count `count_documents({status: "OA_cleared", hr_score: {"$exists": True}})`. -/
def scored_count (apps : List Application) : Nat :=
  (apps.filter (fun a => a.status = Status.OA_cleared && a.hr_score.isSome)).length

/-- Deadline entry point `process_interview_deadline`: returns an info outcome when there is no
`OA_cleared` candidate, a postponed outcome carrying both counts when fewer
`OA_cleared` candidates have an `hr_score` than there are `OA_cleared`
candidates, and otherwise delegates to `process_final_shortlisting`.  The
second component is the application list after the call. -/
def process_interview_deadline (apps : List Application) :
    FinalStageOutcome × List Application :=
  let cleared := oa_cleared_count apps
  let scored := scored_count apps
  if cleared = 0 then (FinalStageOutcome.info, apps)
  else if scored < cleared then
    (FinalStageOutcome.postponed cleared scored, apps)
  else (FinalStageOutcome.success, process_final_shortlisting apps)

/-! ## Scoring adapter (`_score_resume_against_jd_api`) -/

/-- The external LLM call, as observed by the adapter: given the job
description and the resume text it either yields the response text or fails
(`none` covers both `asyncio.TimeoutError` and any other exception). -/
abbrev LLMClient := String → String → Option String

/-- Base-10 value of a digit sequence, as Python `int` reads an all-digit
string. -/
def digitsToNat (cs : List Char) : Nat :=
  cs.foldl (fun n c => n * 10 + (c.toNat - 48)) 0

/-- The adapter body of `_score_resume_against_jd_api`: on a successful
response, keep the digit characters of the text
(`ch for ch in text if ch.isdigit()`); parse them (an empty digit string falls
back to 75) and clamp with `max(0, min(100, score))`.  On timeout or any
other error return the fallback score 75.  The function is total: the adapter
never propagates a failure. -/
def score_resume_against_jd_api (response : Option String) : Int :=
  match response with
  | none => 75
  | some text =>
      let digits := text.data.filter Char.isDigit
      let score : Int := if digits.isEmpty then 75 else (digitsToNat digits : Nat)
      max 0 (min 100 score)

/-! ## Resume stage (`resume_shortlisting_workflow.py`) -/

/-- The query filter of `check_deadline_and_load_candidates`:
`applications.find({"process_id": process_id})` — the only condition is the
process id, so within one process every application matches. -/
def resume_load_filter (_a : Application) : Bool := true

/-- Node `check_deadline_and_load_candidates`, restricted to the applications
of one process: returns the applications matching the load query. -/
def check_deadline_and_load_candidates (apps : List Application) :
    List Application :=
  apps.filter resume_load_filter

/-- The per-candidate body of `score_resumes`: an empty resume gets score 0
and `Resume_rejected`; with no LLM client available the fallback is score 75
and `Resume_shortlisted`; otherwise the adapter score decides
`Resume_shortlisted` iff it is ≥ 50. -/
def score_candidate (llm : Option LLMClient) (jd : String) (a : Application) :
    Application :=
  if a.resume_text = "" then
    { a with resume_match_score := some 0, status := Status.Resume_rejected }
  else
    match llm with
    | none =>
        { a with resume_match_score := some 75,
                 status := Status.Resume_shortlisted }
    | some f =>
        let score := score_resume_against_jd_api (f jd a.resume_text)
        { a with resume_match_score := some score,
                 status := if 50 ≤ score then Status.Resume_shortlisted
                           else Status.Resume_rejected }

/-- Result of `run_resume_scoring_workflow`: either an error outcome from a
node, or completion with the shortlisted/rejected counts reported by
`update_database`. -/
inductive ResumeWorkflowResult where
  | error (msg : String)
  | completed (shortlisted rejected : Nat)
deriving DecidableEq, Repr

/-- Entry point `run_resume_scoring_workflow` on one process: load the candidates
(`check_deadline_and_load_candidates`), fail if there are none or the job
description is empty (the error branches of `score_resumes`), otherwise score every
loaded candidate and write scores and statuses back (`update_database`).  The
second component is the application state after the run. -/
def run_resume_scoring_workflow (jd : String) (llm : Option LLMClient)
    (apps : List Application) : ResumeWorkflowResult × List Application :=
  let cands := check_deadline_and_load_candidates apps
  if cands.isEmpty then
    (ResumeWorkflowResult.error "Missing process data or candidates", apps)
  else if jd = "" then
    (ResumeWorkflowResult.error "Process job description is empty", apps)
  else
    let scored := cands.map (score_candidate llm jd)
    (ResumeWorkflowResult.completed
      (scored.filter (fun a => 50 ≤ a.resume_match_score.getD 0)).length
      (scored.filter (fun a => a.resume_match_score.getD 0 < 50)).length,
     scored)

/-! ## Assessment stage (`assessment_workflow.process_oa_deadline`) -/

/-- The batch query of `process_oa_deadline`:
`{"process_id": ..., "oa_score": {"$exists": True}}` — applications with a
recorded OA score, with no condition on the current status. -/
def oa_deadline_filter (a : Application) : Bool := a.oa_score.isSome

/-- The per-application transition of `process_oa_deadline`: a matched
application becomes `OA_cleared` iff `app.get("oa_score", 0) >= 60`, else
`OA_rejected`; unmatched applications are untouched. -/
def process_oa_deadline_app (a : Application) : Application :=
  if oa_deadline_filter a then
    { a with status := if 60 ≤ a.oa_score.getD 0 then Status.OA_cleared
                       else Status.OA_rejected }
  else a

/-- Batch form of `process_oa_deadline` over the applications of the process. -/
def process_oa_deadline (apps : List Application) : List Application :=
  apps.map process_oa_deadline_app

/-! ## Deadline scheduler (`ap_scheduler_trigger_on_deadline.py`) -/

/-- The APScheduler job store: jobs keyed by id with their fire time. -/
structure SchedulerState where
  jobs : List (String × Int)
deriving DecidableEq, Repr

/-- The fire time of the job with the given id, if scheduled. -/
def lookup_job (s : SchedulerState) (id : String) : Option Int :=
  (s.jobs.find? (fun j => j.1 = id)).map Prod.snd

/-- Model of `scheduler.add_job(..., id=..., replace_existing=True)`: upserts the job,
replacing any existing job with the same id. -/
def add_job (s : SchedulerState) (id : String) (t : Int) : SchedulerState :=
  ⟨(id, t) :: s.jobs.filter (fun j => j.1 ≠ id)⟩

/-- Model of `scheduler.remove_job(id)`: removes the job, or raises `JobLookupError`
(the `Except.error` case) when no job has that id. -/
def remove_job (s : SchedulerState) (id : String) :
    Except Unit SchedulerState :=
  if s.jobs.any (fun j => j.1 = id) then
    Except.ok ⟨s.jobs.filter (fun j => j.1 ≠ id)⟩
  else Except.error ()

/-- The fields of a process document that `schedule_process` reads.
`resume_deadline` is a required field of the document; the other two are read
with `.get` and may be absent. -/
structure ProcessDoc where
  process_id : String
  resume_deadline : Int
  assessment_date : Option Int := none
  offline_interview_date : Option Int := none

/-- Job registration `schedule_process`: for each stage whose deadline is strictly later than
the current scheduling clock, add the job of that stage (id `{stage}_{process_id}`,
`replace_existing=True`); a deadline not strictly in the future adds nothing
for that stage. -/
def schedule_process (s : SchedulerState) (doc : ProcessDoc) (now : Int) :
    SchedulerState :=
  let s1 := if now < doc.resume_deadline then
              add_job s ("resume_" ++ doc.process_id) doc.resume_deadline
            else s
  let s2 := match doc.assessment_date with
            | some d => if now < d then add_job s1 ("oa_" ++ doc.process_id) d
                        else s1
            | none => s1
  match doc.offline_interview_date with
  | some d => if now < d then add_job s2 ("interview_" ++ doc.process_id) d
              else s2
  | none => s2

/-- Job removal `unschedule_process`: one `try` block removes the resume, oa and interview
jobs in that order; the bare `except: pass` swallows the first
`JobLookupError`, keeping whatever removals happened before it and skipping
the remaining `remove_job` calls. -/
def unschedule_process (s : SchedulerState) (pid : String) : SchedulerState :=
  match remove_job s ("resume_" ++ pid) with
  | Except.error _ => s
  | Except.ok s1 =>
    match remove_job s1 ("oa_" ++ pid) with
    | Except.error _ => s1
    | Except.ok s2 =>
      match remove_job s2 ("interview_" ++ pid) with
      | Except.error _ => s2
      | Except.ok s3 => s3

/-! ## Manual trigger controller (`process_controller.shortlist_process_candidates`) -/

/-- The process fields read by the deadline check of the controller. -/
structure ProcessRecord where
  job_description : String
  resume_deadline : Option Int := none

/-- Outcome of the manual resume-stage trigger: HTTP 404 when the process is
absent, HTTP 400 "Resume deadline has passed" from the deadline check, or the
own result of the resume workflow. -/
inductive ShortlistOutcome where
  | notFound
  | deadlinePassed
  | workflow (r : ResumeWorkflowResult)
deriving DecidableEq, Repr

/-- Manual trigger `shortlist_process_candidates`: load the process (404 if absent); if the
process has a `resume_deadline` and `now > resume_deadline`, raise HTTP 400
"Resume deadline has passed" without touching any application; otherwise run
`run_resume_scoring_workflow`.  The second component is the application state
after the call.  (The best-effort cancellation of the scheduled jobs acts on
the scheduler state and is modeled by `remove_job`/`unschedule_process`.) -/
def shortlist_process_candidates (proc : Option ProcessRecord) (now : Int)
    (llm : Option LLMClient) (apps : List Application) :
    ShortlistOutcome × List Application :=
  match proc with
  | none => (ShortlistOutcome.notFound, apps)
  | some p =>
    match p.resume_deadline with
    | some d =>
      if d < now then (ShortlistOutcome.deadlinePassed, apps)
      else
        let r := run_resume_scoring_workflow p.job_description llm apps
        (ShortlistOutcome.workflow r.1, r.2)
    | none =>
        let r := run_resume_scoring_workflow p.job_description llm apps
        (ShortlistOutcome.workflow r.1, r.2)

/-! ## Concrete instances used in the proofs -/

/-- An application with a non-empty resume, freshly submitted. -/
def sampleApp : Application :=
  { candidate_id := "cand1", resume_text := "python developer",
    status := Status.Applied }

/-- An empty-resume application (scenario A of the spec). -/
def emptyResumeApp : Application :=
  { candidate_id := "cand2", resume_text := "", status := Status.Applied }

/-- A process record with job description "jd" and resume deadline at time 10. -/
def sampleProcess : ProcessRecord :=
  { job_description := "jd", resume_deadline := some 10 }

/-- An application already past the final stage that still carries an OA
score of 65. -/
def strayOAApp : Application :=
  { candidate_id := "cand3", resume_text := "r", status := Status.Final_selected,
    oa_score := some 65 }

/-- Scenario C of the spec: `oa_score=40, tech_score=80, hr_score=80`,
status `OA_cleared`. -/
def scenarioCApp : Application :=
  { candidate_id := "cand4", resume_text := "r", status := Status.OA_cleared,
    oa_score := some 40, tech_score := some 80, hr_score := some 80 }

/-- A threshold-boundary application: `oa_score=91, tech_score=96,
hr_score=16`, whose exact weighted combination is 70 while the binary64
computation of the code gives 69.99999999999999. -/
def boundaryApp : Application :=
  { candidate_id := "cand6", resume_text := "r", status := Status.OA_cleared,
    oa_score := some 91, tech_score := some 96, hr_score := some 16 }

/-- Scenario D of the spec: three `OA_cleared` applications, only two of which
have an `hr_score`. -/
def scenarioDApps : List Application :=
  [ { candidate_id := "d1", resume_text := "r", status := Status.OA_cleared,
      oa_score := some 70, hr_score := some 80 },
    { candidate_id := "d2", resume_text := "r", status := Status.OA_cleared,
      oa_score := some 65, hr_score := some 60 },
    { candidate_id := "d3", resume_text := "r", status := Status.OA_cleared,
      oa_score := some 90 } ]

/-- An `OA_cleared` application carrying only an HR score: `oa_score` and
`tech_score` were never recorded. -/
def hrOnlyApp : Application :=
  { candidate_id := "cand5", resume_text := "r", status := Status.OA_cleared,
    hr_score := some 80 }

/-- A scheduler in which process p1 has only its oa and interview jobs: the
resume job is absent (it already fired or was cancelled). -/
def schedNoResume : SchedulerState := ⟨[("oa_p1", 5), ("interview_p1", 7)]⟩

/-! ## Helper lemmas -/

/-- The resume-stage load query has no status condition: it returns every
application of the process. -/
theorem load_candidates_all (apps : List Application) :
    check_deadline_and_load_candidates apps = apps := by
  simp [check_deadline_and_load_candidates, resume_load_filter]

/-- Scoring a candidate does not change the resume text. -/
theorem score_candidate_resume_text (llm : Option LLMClient) (jd : String)
    (a : Application) : (score_candidate llm jd a).resume_text = a.resume_text := by
  unfold score_candidate
  by_cases h : a.resume_text = "" <;> cases llm <;> simp [h]

/-- With a fixed scorer, re-scoring an already scored candidate assigns the
same score and status. -/
theorem score_candidate_idem (llm : Option LLMClient) (jd : String)
    (a : Application) :
    score_candidate llm jd (score_candidate llm jd a) = score_candidate llm jd a := by
  unfold score_candidate
  by_cases h : a.resume_text = "" <;> cases llm <;> simp [h]

/-- Mapping a fixed scorer twice over a batch equals mapping it once. -/
theorem map_score_idem (llm : Option LLMClient) (jd : String)
    (l : List Application) :
    (l.map (score_candidate llm jd)).map (score_candidate llm jd)
      = l.map (score_candidate llm jd) := by
  induction l with
  | nil => rfl
  | cons a l ih => simp [List.map_cons, ih, score_candidate_idem]

/-- Filtering out one job id leaves the lookup of a different id unchanged. -/
theorem find_key_filter_ne (l : List (String × Int)) (id id' : String)
    (h : id' ≠ id) :
    (l.filter (fun j => j.1 ≠ id)).find? (fun j => j.1 = id')
      = l.find? (fun j => j.1 = id') := by
  simp only [List.find?_filter]
  congr 1
  funext x
  by_cases hx : x.1 = id'
  · have hxi : ¬ x.1 = id := fun hc => h (hx ▸ hc)
    simp [hx, hxi]
    exact h
  · simp [hx]

/-- An upserted job is found with its new fire time. -/
theorem lookup_add_self (s : SchedulerState) (id : String) (t : Int) :
    lookup_job (add_job s id t) id = some t := by
  simp [lookup_job, add_job, List.find?_cons]

/-- Upserting one job does not disturb the lookup of a different job id. -/
theorem lookup_add_ne (s : SchedulerState) (id id' : String) (t : Int)
    (h : id' ≠ id) :
    lookup_job (add_job s id t) id' = lookup_job s id' := by
  have hhead : (decide (((id, t) : String × Int).1 = id')) = false := by
    simp
    exact fun hc => h hc.symm
  unfold lookup_job add_job
  rw [List.find?_cons, hhead, find_key_filter_ne _ _ _ h]

/-- Appending the same suffix to strings of different lengths gives different
strings. -/
theorem append_ne_of_length_ne (a b p : String) (h : a.length ≠ b.length) :
    a ++ p ≠ b ++ p := by
  intro he
  apply h
  have h2 := congrArg String.length he
  rw [String.length_append, String.length_append] at h2
  omega

/-! ## Claim theorems -/

/-- C9: for every job description and resume text, the scoring adapter returns
an integer in [0,100]; on timeout of the external call or on any adapter error
(the `none` response) it returns the fixed fallback score 75 instead of
propagating the failure.  The adapter is a total function, so the call never
raises. -/
theorem scoring_adapter_bounded_with_fallback (response : Option String) :
    0 ≤ score_resume_against_jd_api response ∧
    score_resume_against_jd_api response ≤ 100 ∧
    (response = none → score_resume_against_jd_api response = 75) := by
  cases response with
  | none => exact ⟨by norm_num [score_resume_against_jd_api],
      by norm_num [score_resume_against_jd_api], fun _ => rfl⟩
  | some text =>
      refine ⟨?_, ?_, fun hc => by cases hc⟩
      · show (0 : Int) ≤ max 0 _
        exact le_max_left _ _
      · show max 0 (min 100 _) ≤ (100 : Int)
        exact max_le (by norm_num) (min_le_left _ _)

/-- Witness for C9 at the timeout/error input. -/
theorem scoring_adapter_bounded_with_fallback_witness :
    score_resume_against_jd_api none = 75 :=
  (scoring_adapter_bounded_with_fallback none).2.2 rfl

/-- C4: for every candidate processed by the resume stage, the resulting
status is one of Resume_shortlisted and Resume_rejected; the status is
Resume_shortlisted iff the assigned score is ≥ 50; and an empty resume text
gets score 0 and status Resume_rejected. -/
theorem resume_stage_candidate_spec (llm : Option LLMClient) (jd : String)
    (a : Application) :
    ((score_candidate llm jd a).status = Status.Resume_shortlisted ∨
      (score_candidate llm jd a).status = Status.Resume_rejected) ∧
    ((score_candidate llm jd a).status = Status.Resume_shortlisted ↔
      50 ≤ (score_candidate llm jd a).resume_match_score.getD 0) ∧
    (a.resume_text = "" →
      (score_candidate llm jd a).resume_match_score = some 0 ∧
      (score_candidate llm jd a).status = Status.Resume_rejected) := by
  unfold score_candidate
  by_cases h : a.resume_text = ""
  · simp [h]
  · cases llm with
    | none => simp [h]
    | some f =>
        by_cases hs : 50 ≤ score_resume_against_jd_api (f jd a.resume_text)
        · simp [h, hs]
        · simp [h, hs]

/-- Witness for C4: the empty-resume candidate gets score 0 and status
Resume_rejected. -/
theorem resume_stage_candidate_spec_witness :
    (score_candidate none "jd" emptyResumeApp).resume_match_score = some 0 ∧
    (score_candidate none "jd" emptyResumeApp).status = Status.Resume_rejected :=
  (resume_stage_candidate_spec none "jd" emptyResumeApp).2.2 rfl

/-- C2: whenever fewer OA_cleared applications have an hr_score than there are
OA_cleared applications, the final stage returns the postponed outcome
carrying both counts and leaves every application untouched. -/
theorem final_stage_postponed_when_scores_incomplete (apps : List Application)
    (h : scored_count apps < oa_cleared_count apps) :
    process_interview_deadline apps
      = (FinalStageOutcome.postponed (oa_cleared_count apps) (scored_count apps),
         apps) := by
  have h0 : ¬ oa_cleared_count apps = 0 := by omega
  simp [process_interview_deadline, h0, h]

/-- Witness for C2 at scenario D: 3 OA_cleared candidates, 2 with hr scores →
postponed with counts (3, 2) and no change to the applications. -/
theorem final_stage_postponed_when_scores_incomplete_witness :
    process_interview_deadline scenarioDApps
      = (FinalStageOutcome.postponed 3 2, scenarioDApps) := by
  have h := final_stage_postponed_when_scores_incomplete scenarioDApps (by decide)
  rw [h]
  decide

/-- C7 (at the failing input of the code defect): when the resume job of a
process is absent while its oa and interview jobs are still scheduled,
`unschedule_process` removes nothing — the first `remove_job` raises
`JobLookupError`, the surrounding single `except` swallows it, and the oa and
interview removals are skipped, leaving both jobs scheduled.  The call still
never raises. -/
theorem unschedule_skips_jobs_after_missing_resume_job :
    unschedule_process schedNoResume "p1" = schedNoResume ∧
    lookup_job (unschedule_process schedNoResume "p1") "oa_p1" = some 5 ∧
    lookup_job (unschedule_process schedNoResume "p1") "interview_p1" = some 7 := by
  decide

/-- C1 counterexample: with the resume deadline at time 10, the manual trigger
at time 5 — before the deadline — is not rejected but runs the workflow (here
shortlisting the one candidate), while the manual trigger at time 20 — after
the deadline — is rejected with the 400 error.  The deadline check of the code
is the reverse of the claimed one. -/
theorem manual_resume_trigger_counterexample :
    (shortlist_process_candidates (some sampleProcess) 5 none [sampleApp]).1
        = ShortlistOutcome.workflow (ResumeWorkflowResult.completed 1 0) ∧
    (shortlist_process_candidates (some sampleProcess) 20 none [sampleApp]).1
        = ShortlistOutcome.deadlinePassed := by
  decide

/-- C1 amended: for every process with a resume_deadline set, a manual trigger
of the resume stage made after the deadline is rejected with the
"Resume deadline has passed" 400 error and performs no transitions, while the
same call made at or before the deadline proceeds to run the resume workflow. -/
theorem manual_resume_trigger_deadline_check (proc : ProcessRecord)
    (d now : Int) (llm : Option LLMClient) (apps : List Application)
    (hd : proc.resume_deadline = some d) :
    (d < now →
      shortlist_process_candidates (some proc) now llm apps
        = (ShortlistOutcome.deadlinePassed, apps)) ∧
    (now ≤ d →
      shortlist_process_candidates (some proc) now llm apps
        = (ShortlistOutcome.workflow
            (run_resume_scoring_workflow proc.job_description llm apps).1,
           (run_resume_scoring_workflow proc.job_description llm apps).2)) := by
  constructor
  · intro h
    simp [shortlist_process_candidates, hd, h]
  · intro h
    simp [shortlist_process_candidates, hd, not_lt.mpr h]

/-- Witness for the C1 amendment: at time 20, past the deadline 10, the manual
trigger is rejected and the applications are untouched. -/
theorem manual_resume_trigger_deadline_check_witness :
    shortlist_process_candidates (some sampleProcess) 20 none [sampleApp]
      = (ShortlistOutcome.deadlinePassed, [sampleApp]) :=
  (manual_resume_trigger_deadline_check sampleProcess 10 20 none [sampleApp]
    rfl).1 (by norm_num)

/-- C3 counterexample: after the resume stage has run once, the load query of
a second run — which filters by process id only, not by status — still matches
the already-transitioned candidate: the batch is not empty, and the second run
scores and writes that candidate again (reporting 1 shortlisted again) rather
than finding no matching candidates. -/
theorem resume_rerun_counterexample :
    check_deadline_and_load_candidates
        ((run_resume_scoring_workflow "jd" none [sampleApp]).2) ≠ [] ∧
    (run_resume_scoring_workflow "jd" none
        ((run_resume_scoring_workflow "jd" none [sampleApp]).2)).1
      = ResumeWorkflowResult.completed 1 0 := by
  decide

/-- C3 amended: the resume-stage load query does not filter by status — a
second run loads every application again (the full list, not an empty batch);
because the score of a candidate depends only on the unchanged resume text,
the second run with the same scorer writes back identical scores and statuses,
so the application state and the reported counts are unchanged (value-level
idempotence, not query-level exclusion). -/
theorem resume_rerun_idempotent (jd : String) (llm : Option LLMClient)
    (apps : List Application) (h1 : apps ≠ []) (h2 : jd ≠ "") :
    check_deadline_and_load_candidates
        ((run_resume_scoring_workflow jd llm apps).2)
      = (run_resume_scoring_workflow jd llm apps).2 ∧
    ((run_resume_scoring_workflow jd llm apps).2).length = apps.length ∧
    run_resume_scoring_workflow jd llm ((run_resume_scoring_workflow jd llm apps).2)
      = run_resume_scoring_workflow jd llm apps := by
  have hload := load_candidates_all apps
  have hne : apps.isEmpty = false := by
    cases apps with
    | nil => cases h1 rfl
    | cons a l => rfl
  have hfirst : run_resume_scoring_workflow jd llm apps
      = (ResumeWorkflowResult.completed
          ((apps.map (score_candidate llm jd)).filter
            (fun a => 50 ≤ a.resume_match_score.getD 0)).length
          ((apps.map (score_candidate llm jd)).filter
            (fun a => a.resume_match_score.getD 0 < 50)).length,
         apps.map (score_candidate llm jd)) := by
    unfold run_resume_scoring_workflow
    rw [hload]
    simp [hne, h2]
  have hsnd : (run_resume_scoring_workflow jd llm apps).2
      = apps.map (score_candidate llm jd) := by rw [hfirst]
  have hlen : (apps.map (score_candidate llm jd)).length = apps.length :=
    List.length_map _ _
  refine ⟨by rw [hsnd]; exact load_candidates_all _, by rw [hsnd]; exact hlen, ?_⟩
  have hne2 : (apps.map (score_candidate llm jd)).isEmpty = false := by
    cases apps with
    | nil => cases h1 rfl
    | cons a l => rfl
  rw [hsnd, hfirst]
  unfold run_resume_scoring_workflow
  rw [load_candidates_all]
  simp [hne2, h2, ← List.map_map, map_score_idem, score_candidate_idem]

/-- Witness for the C3 amendment at a one-candidate process. -/
theorem resume_rerun_idempotent_witness :
    check_deadline_and_load_candidates
        ((run_resume_scoring_workflow "jd" none [sampleApp]).2)
      = (run_resume_scoring_workflow "jd" none [sampleApp]).2 ∧
    ((run_resume_scoring_workflow "jd" none [sampleApp]).2).length = 1 ∧
    run_resume_scoring_workflow "jd" none
        ((run_resume_scoring_workflow "jd" none [sampleApp]).2)
      = run_resume_scoring_workflow "jd" none [sampleApp] :=
  resume_rerun_idempotent "jd" none [sampleApp] (by decide) (by decide)

/-- C5 counterexample: an application whose status is not Resume_shortlisted —
here one already Final_selected — but which still has oa_score 65 is matched
by the assessment batch (whose query checks only that oa_score exists) and is
transitioned back to OA_cleared. -/
theorem assessment_stage_counterexample :
    strayOAApp.status ≠ Status.Resume_shortlisted ∧
    process_oa_deadline [strayOAApp]
      = [{ strayOAApp with status := Status.OA_cleared }] := by
  decide

/-- C5 amended: the assessment stage transitions exactly the applications with
a recorded oa_score, regardless of their current status: oa_score ≥ 60 gives
OA_cleared (so oa_score 65 yields OA_cleared), oa_score < 60 gives
OA_rejected, and an application without an oa_score is left completely
unchanged. -/
theorem assessment_stage_transition_spec (a : Application) :
    (∀ s : Int, a.oa_score = some s →
      (process_oa_deadline_app a).status
          = (if 60 ≤ s then Status.OA_cleared else Status.OA_rejected) ∧
      (process_oa_deadline_app a).oa_score = some s ∧
      (process_oa_deadline_app a).resume_match_score = a.resume_match_score ∧
      (process_oa_deadline_app a).hr_score = a.hr_score) ∧
    (a.oa_score = none → process_oa_deadline_app a = a) := by
  constructor
  · intro s hs
    simp [process_oa_deadline_app, oa_deadline_filter, hs]
  · intro hs
    simp [process_oa_deadline_app, oa_deadline_filter, hs]

/-- Witness for the C5 amendment: oa_score 65 yields OA_cleared even on an
application whose status is Final_selected. -/
theorem assessment_stage_transition_spec_witness :
    (process_oa_deadline_app strayOAApp).status = Status.OA_cleared := by
  have h := ((assessment_stage_transition_spec strayOAApp).1 65 rfl).1
  simpa using h

/-- C6 counterexample: at oa 91, tech 96, hr 16 the exact combination
0.4*91 + 0.3*96 + 0.3*16 equals 70, so by the claim the candidate becomes
Final_selected; but the code computes the combination in binary64 floating
point, obtaining 69.99999999999999 — strictly below 70 — and the candidate
becomes Final_rejected. -/
theorem final_selection_boundary_counterexample :
    ((4 : ℚ)/10) * 91 + ((3 : ℚ)/10) * 96 + ((3 : ℚ)/10) * 16 = 70 ∧
    combined_score boundaryApp < 70 ∧
    (process_final_shortlisting_app boundaryApp).status
      = Status.Final_rejected := by
  have hd : combined_dyadic boundaryApp = (4925812092436479, -46) := by decide
  have ht46 : Int.toNat 46 = 46 := rfl
  have hv : combined_score boundaryApp < 70 := by
    rw [combined_score, hd]; norm_num [dyadicVal, ht46]
  refine ⟨by norm_num, hv, ?_⟩
  have hfil : final_batch_filter boundaryApp = true := by decide
  simp [process_final_shortlisting_app, hfil, not_le.mpr hv]

/-- C6 amended: in the final stage, every application with status OA_cleared
and a non-null hr_score is processed — it gets the combined score
0.4*oa + 0.3*tech + 0.3*hr, computed in binary64 floating point exactly as the
code computes it, as final_score and becomes Final_selected iff that computed
score is ≥ 70, else Final_rejected — and every other application is carried
over unchanged. -/
theorem final_selection_spec (apps : List Application) (a : Application)
    (ha : a ∈ apps) :
    (a.status = Status.OA_cleared → a.hr_score.isSome →
      { a with
        status := if 70 ≤ combined_score a then Status.Final_selected
                  else Status.Final_rejected,
        final_score := some (combined_score a) } ∈ process_final_shortlisting apps) ∧
    (¬ (a.status = Status.OA_cleared ∧ a.hr_score.isSome) →
      a ∈ process_final_shortlisting apps) := by
  constructor
  · intro h1 h2
    have hf : process_final_shortlisting_app a
        = { a with
            status := if 70 ≤ combined_score a then Status.Final_selected
                      else Status.Final_rejected,
            final_score := some (combined_score a) } := by
      simp [process_final_shortlisting_app, final_batch_filter, h1, h2]
    exact hf ▸ List.mem_map_of_mem _ ha
  · intro h
    have hfil : final_batch_filter a = false := by
      rcases not_and_or.mp h with h | h
      · simp [final_batch_filter, h]
      · simp [final_batch_filter, Bool.eq_false_iff.mpr h]
    have hf : process_final_shortlisting_app a = a := by
      simp [process_final_shortlisting_app, hfil]
    exact hf ▸ List.mem_map_of_mem _ ha

/-- Witness for C6 at scenario C: oa 40, tech 80, hr 80 gives combined score
64 and Final_rejected. -/
theorem final_selection_spec_witness :
    { scenarioCApp with
      status := Status.Final_rejected,
      final_score := some 64 } ∈ process_final_shortlisting [scenarioCApp] := by
  have hd : combined_dyadic scenarioCApp = (4503599627370496, -46) := by decide
  have ht46 : Int.toNat 46 = 46 := rfl
  have hc : combined_score scenarioCApp = 64 := by
    rw [combined_score, hd]; norm_num [dyadicVal, ht46]
  have h := (final_selection_spec [scenarioCApp] scenarioCApp
    (List.mem_singleton.mpr rfl)).1 rfl rfl
  rw [hc] at h
  rwa [if_neg (by norm_num : ¬ (70:ℚ) ≤ 64)] at h

/-- C10: an application with status OA_cleared and a non-null hr_score whose
tech_score or oa_score is absent is still processed by the final stage —
ending Final_selected or Final_rejected with the computed combined score
stored, never postponed or skipped — with each missing score counting as 0 in
the binary64 combined-score computation. -/
theorem final_stage_processes_missing_scores (a : Application) (h : Int)
    (hs : a.status = Status.OA_cleared) (hh : a.hr_score = some h)
    (hm : a.tech_score = none ∨ a.oa_score = none) :
    ((process_final_shortlisting_app a).status = Status.Final_selected ∨
      (process_final_shortlisting_app a).status = Status.Final_rejected) ∧
    (process_final_shortlisting_app a).final_score = some (combined_score a) ∧
    (a.tech_score = none →
      (process_final_shortlisting_app a).final_score
        = some (dyadicVal (float_combine (a.oa_score.getD 0) 0 h))) ∧
    (a.oa_score = none →
      (process_final_shortlisting_app a).final_score
        = some (dyadicVal (float_combine 0 (a.tech_score.getD 0) h))) := by
  have hfil : final_batch_filter a = true := by
    simp [final_batch_filter, hs, hh]
  refine ⟨?_, ?_, ?_, ?_⟩
  · by_cases h7 : 70 ≤ combined_score a
    · left; simp [process_final_shortlisting_app, hfil, h7]
    · right; simp [process_final_shortlisting_app, hfil, h7]
  · simp [process_final_shortlisting_app, hfil]
  · intro ht
    simp [process_final_shortlisting_app, hfil, combined_score,
      combined_dyadic, ht, hh]
  · intro ho
    simp [process_final_shortlisting_app, hfil, combined_score,
      combined_dyadic, ho, hh]

/-- Witness for C10: an OA_cleared application with only hr_score 80 — both
oa_score and tech_score absent — is processed, with stored combined score 24
(the binary64 result of 0 * 0.4 + 0 * 0.3 + 80 * 0.3). -/
theorem final_stage_processes_missing_scores_witness :
    (process_final_shortlisting_app hrOnlyApp).final_score = some 24 := by
  have hw := (final_stage_processes_missing_scores hrOnlyApp 80 rfl rfl
    (Or.inl rfl)).2.2.1 rfl
  rw [hw]
  have hd : float_combine (hrOnlyApp.oa_score.getD 0) 0 80
      = (6755399441055744, -48) := by decide
  have ht48 : Int.toNat 48 = 48 := rfl
  rw [hd]
  norm_num [dyadicVal, ht48]

/-- C8: registering the scheduled jobs of a process adds a job for a stage
exactly when its fire time is strictly later than the scheduling clock — a
fire time not strictly in the future leaves the jobs of that stage as they
were (no job added, no error) — and when the job is added it replaces any
prior job under the same id, so the looked-up fire time is the new one. -/
theorem schedule_process_registers_future_jobs (s : SchedulerState)
    (doc : ProcessDoc) (now : Int) :
    (lookup_job (schedule_process s doc now) ("resume_" ++ doc.process_id)
      = if now < doc.resume_deadline then some doc.resume_deadline
        else lookup_job s ("resume_" ++ doc.process_id)) ∧
    (lookup_job (schedule_process s doc now) ("oa_" ++ doc.process_id)
      = match doc.assessment_date with
        | some d => if now < d then some d
                    else lookup_job s ("oa_" ++ doc.process_id)
        | none => lookup_job s ("oa_" ++ doc.process_id)) ∧
    (lookup_job (schedule_process s doc now) ("interview_" ++ doc.process_id)
      = match doc.offline_interview_date with
        | some d => if now < d then some d
                    else lookup_job s ("interview_" ++ doc.process_id)
        | none => lookup_job s ("interview_" ++ doc.process_id)) := by
  obtain ⟨pid, rd, ad, od⟩ := doc
  have hro : ("resume_" ++ pid) ≠ ("oa_" ++ pid) :=
    append_ne_of_length_ne _ _ _ (by decide)
  have hri : ("resume_" ++ pid) ≠ ("interview_" ++ pid) :=
    append_ne_of_length_ne _ _ _ (by decide)
  have hor : ("oa_" ++ pid) ≠ ("resume_" ++ pid) :=
    append_ne_of_length_ne _ _ _ (by decide)
  have hoi : ("oa_" ++ pid) ≠ ("interview_" ++ pid) :=
    append_ne_of_length_ne _ _ _ (by decide)
  have hir : ("interview_" ++ pid) ≠ ("resume_" ++ pid) :=
    append_ne_of_length_ne _ _ _ (by decide)
  have hio : ("interview_" ++ pid) ≠ ("oa_" ++ pid) :=
    append_ne_of_length_ne _ _ _ (by decide)
  unfold schedule_process
  cases ad with
  | none =>
    cases od with
    | none =>
        by_cases h1 : now < rd <;>
          refine ⟨?_, ?_, ?_⟩ <;>
          simp [h1, lookup_add_self, lookup_add_ne, hro, hri, hor, hoi, hir, hio]
    | some di =>
        by_cases h1 : now < rd <;> by_cases h3 : now < di <;>
          refine ⟨?_, ?_, ?_⟩ <;>
          simp [h1, h3, lookup_add_self, lookup_add_ne,
            hro, hri, hor, hoi, hir, hio]
  | some da =>
    cases od with
    | none =>
        by_cases h1 : now < rd <;> by_cases h2 : now < da <;>
          refine ⟨?_, ?_, ?_⟩ <;>
          simp [h1, h2, lookup_add_self, lookup_add_ne,
            hro, hri, hor, hoi, hir, hio]
    | some di =>
        by_cases h1 : now < rd <;> by_cases h2 : now < da <;>
          by_cases h3 : now < di <;>
          refine ⟨?_, ?_, ?_⟩ <;>
          simp [h1, h2, h3, lookup_add_self, lookup_add_ne,
            hro, hri, hor, hoi, hir, hio]

end Hiring
